import Mathlib

/-
Verification of the buffer-mediated asset ingestion and export pipeline.

The repository ships the Python drivers and the cffi declaration file
(src/cli/python_api/build_dt_api.py) for a C shim (dt_api_shim) around the
darktable engine.  The shim and the engine proper are not part of the
source tree, so the engine-side operations (film creation, image import,
buffer attachment, export, export-from-buffer) are modelled from the
specification.  The Python drivers themselves (test_buffer_export.py,
test_dt_api.py, demo_buffer_export.py, test_init_only.py,
benchmark_batch.py, benchmark_detailed_no_reuse.py,
benchmark_detailed_state_reuse.py) are embedded directly from their code
as event traces parameterised by the outcome of each fallible call.
-/

namespace DT

/-- Status codes: 0 is success, each failure class has a distinct
nonzero code (the numeric assignment is an implementation choice). -/
def STATUS_OK : Nat := 0

def ERR_INVALID_FILM : Nat := 2

def ERR_INVALID_IMAGE : Nat := 3

def ERR_UNSUPPORTED : Nat := 4

def ERR_MODULE_LOOKUP : Nat := 5

def ERR_DECODE : Nat := 7

def ERR_EXPORT : Nat := 8

/-- The sentinel id for a failed film creation or image import.  Live ids
are positive. -/
def INVALID_ID : Nat := 0

/-- Modelled from the spec: Metadata has fields maker, model, lens, width,
height, focal_length, aperture, orientation, all derived once at import
time from the path.  The shim code that extracts them is not under src. -/
structure Metadata where
  maker : String
  model : String
  lens : String
  width : Nat
  height : Nat
  focal_length : Nat
  aperture : Nat
  orientation : Nat
deriving DecidableEq, Repr

def emptyMetadata : Metadata := ⟨"", "", "", 0, 0, 0, 0, 0⟩

/-- Modelled from the spec: an Image is id, film_id, source_path and the
metadata extracted at import time. -/
structure Image where
  id : Nat
  film_id : Nat
  source_path : String
  metadata : Metadata
deriving DecidableEq, Repr

/-- Modelled from the spec: the engine state.  films maps a canonical
directory to its film id; images is the catalog; buffers is the buffer
registry, holding per image id only the caller reference and the length
(never the bytes); outputs records the files written by the storage
module. -/
structure Engine where
  films : List (String × Nat)
  images : List Image
  buffers : List (Nat × Nat × Nat)
  outputs : List (String × List Nat)
  nextFilmId : Nat
  nextImageId : Nat
deriving DecidableEq, Repr

/-- Modelled from the spec: the external collaborators the engine calls
into, which the spec leaves opaque: path canonicalization, the supported
check, the filesystem, the caller-owned memory holding attached buffers,
EXIF extraction, the decode and processing black box, the encoders and
the storage module registry. -/
structure Config where
  canon : String → Option String
  supported : String → Bool
  fs : String → Option (List Nat)
  mem : Nat → List Nat
  extract : List Nat → Metadata
  decode : List Nat → Option (List Nat)
  process : List Nat → Nat → Nat → List Nat
  encode : String → List Nat → Nat → List Nat
  inferFormat : String → Option String
  storages : List String

/-- Look an image up by id in the catalog. -/
def findImage (st : Engine) (imgid : Nat) : Option Image :=
  st.images.find? (fun img => img.id == imgid)

/-- Whether a film id is live in the catalog. -/
def filmLive (st : Engine) (fid : Nat) : Bool :=
  st.films.any (fun e => e.2 == fid)

/-- Look an image up by its owning film and path. -/
def findCatalogImage (st : Engine) (fid : Nat) (path : String) : Option Image :=
  st.images.find? (fun img => img.film_id == fid && img.source_path == path)

/-- Modelled from the spec: create_film canonicalizes the directory,
returns the existing film id for an already known canonical directory,
otherwise registers a fresh id.  INVALID only on failed canonicalization. -/
def create_film (cfg : Config) (st : Engine) (dir : String) : Engine × Nat :=
  match cfg.canon dir with
  | none => (st, INVALID_ID)
  | some c =>
    match st.films.lookup c with
    | some fid => (st, fid)
    | none =>
      ({ st with films := (c, st.nextFilmId) :: st.films,
                 nextFilmId := st.nextFilmId + 1 }, st.nextFilmId)

/-- Modelled from the spec: import_image fails with the INVALID sentinel
if the film id is not live, the path is unsupported, or the file cannot
be opened; with check_duplicates it returns an existing entry for the
same film and path; otherwise it reads the file, extracts the metadata
from its bytes and creates a fresh catalog entry. -/
def import_image (cfg : Config) (st : Engine) (film_id : Nat) (path : String)
    (_override_filter : Bool) (check_duplicates : Bool) : Engine × Nat :=
  if ¬ filmLive st film_id then (st, INVALID_ID)
  else if ¬ cfg.supported path then (st, INVALID_ID)
  else
    match (if check_duplicates then findCatalogImage st film_id path else none) with
    | some img => (st, img.id)
    | none =>
      match cfg.fs path with
      | none => (st, INVALID_ID)
      | some bytes =>
        let img : Image := ⟨st.nextImageId, film_id, path, cfg.extract bytes⟩
        ({ st with images := img :: st.images,
                   nextImageId := st.nextImageId + 1 },
         st.nextImageId)

/-- Modelled from the spec: attach_buffer fails with InvalidImageError if
the image id is not live; otherwise it records the caller reference and
length for that id, replacing any prior entry (last-writer-wins). -/
def attach_buffer (_cfg : Config) (st : Engine) (imgid ref len : Nat) : Engine × Nat :=
  match findImage st imgid with
  | none => (st, ERR_INVALID_IMAGE)
  | some _ =>
    ({ st with
        buffers := (imgid, ref, len) :: st.buffers.filter (fun b => ! (b.1 == imgid)) },
     STATUS_OK)

/-- The resolved decode source: either the original path or an attached
caller buffer. -/
inductive DecodeSource where
  | path (p : String)
  | buffer (ref len : Nat)
deriving DecidableEq, Repr

/-- Modelled from the spec: resolve_source returns the attached buffer if
one exists, else the source path of the image; it is the single decision
point read by the export pipeline, consulted fresh at export time. -/
def resolve_source (st : Engine) (imgid : Nat) : Option DecodeSource :=
  match st.buffers.lookup imgid with
  | some (ref, len) => some (.buffer ref len)
  | none => (findImage st imgid).map (fun img => .path img.source_path)

/-- The bytes a decode source denotes: file contents for a path, the
referenced region of caller memory for a buffer. -/
def sourceBytes (cfg : Config) : DecodeSource → Option (List Nat)
  | .path p => cfg.fs p
  | .buffer ref len => some ((cfg.mem ref).take len)

/-- Modelled from the spec: the decode, process, encode part of the export
pipeline, a pure function of the source byte stream.  Unreadable or
undecodable bytes give DecodeError; an empty encode result gives
ExportError; otherwise the encoded output and success. -/
def runPipeline (cfg : Config) (fmt : String) (someBytes : Option (List Nat))
    (quality maxw maxh : Nat) : Option (List Nat) × Nat :=
  match someBytes with
  | none => (none, ERR_DECODE)
  | some bytes =>
    match cfg.decode bytes with
    | none => (none, ERR_DECODE)
    | some raster =>
      let encoded := cfg.encode fmt (cfg.process raster maxw maxh) quality
      if encoded.isEmpty then (none, ERR_EXPORT) else (some encoded, STATUS_OK)

/-- The storage step: on success the encoded bytes are written to the
output path; on failure the engine state is untouched. -/
def applyStore (st : Engine) (out : String) : Option (List Nat) × Nat → Engine × Nat
  | (some encoded, code) => ({ st with outputs := (out, encoded) :: st.outputs }, code)
  | (none, code) => (st, code)

/-- Modelled from the spec: the export pipeline.  Validate the image id,
resolve the decode source fresh, run decode, process, encode over the
resolved bytes, and store the result. -/
def export_image (cfg : Config) (st : Engine) (imgid : Nat) (fmt : String)
    (out : String) (quality maxw maxh : Nat) : Engine × Nat :=
  match findImage st imgid with
  | none => (st, ERR_INVALID_IMAGE)
  | some _ =>
    match resolve_source st imgid with
    | none => (st, ERR_INVALID_IMAGE)
    | some src =>
      applyStore st out (runPipeline cfg fmt (sourceBytes cfg src) quality maxw maxh)

/-- Modelled from the spec: the implicit ephemeral import performed by
export_from_buffer; it allocates a fresh image id with no source path and
no metadata read (metadata cannot be sourced from memory). -/
def ephemeralImport (st : Engine) : Engine :=
  { st with images := ⟨st.nextImageId, 0, "", emptyMetadata⟩ :: st.images,
            nextImageId := st.nextImageId + 1 }

/-- Modelled from the spec: export_from_buffer looks up the format module
by the output path extension and the direct-file storage module, then
performs the ephemeral import, the attach and the export in one call. -/
def export_from_buffer (cfg : Config) (st : Engine) (ref len : Nat)
    (out : String) (quality maxw maxh : Nat) : Engine × Nat :=
  match cfg.inferFormat out with
  | none => (st, ERR_MODULE_LOOKUP)
  | some fmt =>
    if ¬ cfg.storages.contains "disk" then (st, ERR_MODULE_LOOKUP)
    else
      let imgid := st.nextImageId
      let st1 := ephemeralImport st
      let st2 := (attach_buffer cfg st1 imgid ref len).1
      export_image cfg st2 imgid fmt out quality maxw maxh

/-- Basic well-formedness of an engine state: fresh ids start above the
INVALID sentinel and every live film and image id is nonzero. -/
def EngineWF (st : Engine) : Prop :=
  1 ≤ st.nextFilmId ∧ 1 ≤ st.nextImageId ∧
  (∀ e ∈ st.films, e.2 ≠ 0) ∧ (∀ img ∈ st.images, img.id ≠ 0)

instance (st : Engine) : Decidable (EngineWF st) := by
  unfold EngineWF; infer_instance

/-- A small concrete instantiation of the external collaborators, used to
evaluate the theorems on concrete inputs. -/
def demoCfg : Config where
  canon := fun s => if s = "" then none else some s
  supported := fun p => ! (p == "")
  fs := fun p =>
    if p = "/d/a.raw" then some [7, 7, 7]
    else if p = "/d/b.raw" then some [1, 2] else none
  mem := fun r => if r = 0 then [7, 7, 7] else [1, 2]
  extract := fun b => ⟨"mk", "md", "ln", b.length, b.length, 0, 0, 1⟩
  decode := fun b => if b = [7, 7, 7] then some b else none
  process := fun r _ _ => r
  encode := fun _ r _ => r
  inferFormat := fun p => if p = "" then none else some "jpeg"
  storages := ["disk"]

/-- A concrete engine state with one film and one imported image. -/
def demoEngine : Engine where
  films := [("/d", 1)]
  images := [⟨1, 1, "/d/a.raw", ⟨"mk", "md", "ln", 3, 3, 0, 0, 1⟩⟩]
  buffers := []
  outputs := []
  nextFilmId := 2
  nextImageId := 2

/-- The image stored in the concrete engine state. -/
def demoImg : Image := ⟨1, 1, "/d/a.raw", ⟨"mk", "md", "ln", 3, 3, 0, 0, 1⟩⟩

theorem lookup_mem_of_eq_some {α β : Type} [BEq α] [LawfulBEq α]
    {l : List (α × β)} {c : α} {v : β} (h : List.lookup c l = some v) :
    (c, v) ∈ l := by
  induction l with
  | nil => simp [List.lookup] at h
  | cons hd tl ih =>
    rw [List.lookup] at h
    by_cases hc : c == hd.1
    · simp only [hc, if_pos] at h
      cases h
      have hce : c = hd.1 := eq_of_beq hc
      cases hd
      subst hce
      exact List.mem_cons_self _ _
    · simp only [hc] at h
      right
      exact ih h

theorem find?_mem_of_eq_some {α : Type} {p : α → Bool} {l : List α} {a : α}
    (h : l.find? p = some a) : a ∈ l :=
  List.mem_of_find?_eq_some h

/-- C6: for every directory d, create_film called twice returns the same
FilmId both times (at most one film per canonical directory); the result
is the INVALID sentinel exactly when canonicalization fails; and the
result never depends on whether the directory exists on the filesystem. -/
theorem C6_create_film_idempotent (cfg : Config) (st : Engine) (d : String)
    (hwf : EngineWF st) :
    (create_film cfg (create_film cfg st d).1 d).2 = (create_film cfg st d).2
    ∧ ((create_film cfg st d).2 = INVALID_ID ↔ cfg.canon d = none)
    ∧ (∀ fs2, create_film { cfg with fs := fs2 } st d = create_film cfg st d) := by
  obtain ⟨hnf, -, hfilms, -⟩ := hwf
  cases hc : cfg.canon d with
  | none =>
    refine ⟨?_, ?_, ?_⟩
    · simp [create_film, hc]
    · simp [create_film, hc]
    · intro fs2; simp [create_film, hc]
  | some c =>
    cases hl : st.films.lookup c with
    | some fid =>
      refine ⟨?_, ?_, ?_⟩
      · simp [create_film, hc, hl]
      · simp only [create_film, hc, hl, INVALID_ID]
        simp only [iff_false, reduceCtorEq]
        exact hfilms (c, fid) (lookup_mem_of_eq_some hl)
      · intro fs2; simp [create_film, hc, hl]
    | none =>
      refine ⟨?_, ?_, ?_⟩
      · simp [create_film, hc, hl, List.lookup]
      · simp only [create_film, hc, hl, INVALID_ID]
        simp only [iff_false, reduceCtorEq]
        omega
      · intro fs2; simp [create_film, hc, hl]

theorem C6_witness :
    (create_film demoCfg (create_film demoCfg demoEngine "/e").1 "/e").2
      = (create_film demoCfg demoEngine "/e").2
    ∧ ((create_film demoCfg demoEngine "/e").2 = INVALID_ID
        ↔ demoCfg.canon "/e" = none)
    ∧ (∀ fs2, create_film { demoCfg with fs := fs2 } demoEngine "/e"
        = create_film demoCfg demoEngine "/e") :=
  C6_create_film_idempotent demoCfg demoEngine "/e" (by decide)

/-- C7: with check_duplicates set, importing the same path twice into the
same live film returns the same ImageId both times, the id is not the
INVALID sentinel, and the second import leaves the catalog unchanged, so
no duplicate entry is created and the metadata is identical. -/
theorem C7_import_idempotent (cfg : Config) (st : Engine) (f : Nat) (p : String)
    (ov : Bool) (hwf : EngineWF st) (hf : filmLive st f = true)
    (hs : cfg.supported p = true) (bytes : List Nat) (hb : cfg.fs p = some bytes) :
    (import_image cfg (import_image cfg st f p ov true).1 f p ov true).2
      = (import_image cfg st f p ov true).2
    ∧ (import_image cfg st f p ov true).2 ≠ INVALID_ID
    ∧ (import_image cfg (import_image cfg st f p ov true).1 f p ov true).1
      = (import_image cfg st f p ov true).1 := by
  obtain ⟨-, hni, -, himgs⟩ := hwf
  cases hdup : findCatalogImage st f p with
  | some img =>
    have h1 : import_image cfg st f p ov true = (st, img.id) := by
      simp [import_image, hf, hs, hdup]
    refine ⟨?_, ?_, ?_⟩
    · rw [h1]; exact congrArg Prod.snd h1
    · rw [h1]
      exact himgs img (find?_mem_of_eq_some hdup)
    · rw [h1]; exact congrArg Prod.fst h1
  | none =>
    have h1 : import_image cfg st f p ov true =
        ({ st with images := ⟨st.nextImageId, f, p, cfg.extract bytes⟩ :: st.images,
                   nextImageId := st.nextImageId + 1 }, st.nextImageId) := by
      simp [import_image, hf, hs, hdup, hb]
    have hf1 : filmLive ({ st with
        images := ⟨st.nextImageId, f, p, cfg.extract bytes⟩ :: st.images,
        nextImageId := st.nextImageId + 1 } : Engine) f = true := hf
    have h2 : import_image cfg
        ({ st with images := ⟨st.nextImageId, f, p, cfg.extract bytes⟩ :: st.images,
                   nextImageId := st.nextImageId + 1 } : Engine) f p ov true =
        ({ st with images := ⟨st.nextImageId, f, p, cfg.extract bytes⟩ :: st.images,
                   nextImageId := st.nextImageId + 1 }, st.nextImageId) := by
      simp [import_image, hf1, hs, findCatalogImage, List.find?]
    refine ⟨?_, ?_, ?_⟩
    · rw [h1, h2]
    · rw [h1]; simp only [INVALID_ID]; omega
    · rw [h1, h2]

theorem C7_witness :
    (import_image demoCfg
        (import_image demoCfg demoEngine 1 "/d/a.raw" false true).1
        1 "/d/a.raw" false true).2
      = (import_image demoCfg demoEngine 1 "/d/a.raw" false true).2
    ∧ (import_image demoCfg demoEngine 1 "/d/a.raw" false true).2 ≠ INVALID_ID
    ∧ (import_image demoCfg
        (import_image demoCfg demoEngine 1 "/d/a.raw" false true).1
        1 "/d/a.raw" false true).1
      = (import_image demoCfg demoEngine 1 "/d/a.raw" false true).1 :=
  C7_import_idempotent demoCfg demoEngine 1 "/d/a.raw" false (by decide)
    (by decide) (by decide) [7, 7, 7] (by decide)

/-- C3: attach_buffer fails with InvalidImageError exactly when the image
id is not live; for a live id it succeeds, the registry afterwards holds
for that id only the caller reference and the length just supplied, any
prior entry for the id is dropped, and the catalog is untouched. -/
theorem C3_attach_buffer_contract (cfg : Config) (st : Engine) (imgid ref len : Nat) :
    (findImage st imgid = none →
      attach_buffer cfg st imgid ref len = (st, ERR_INVALID_IMAGE))
    ∧ (∀ img, findImage st imgid = some img →
        (attach_buffer cfg st imgid ref len).2 = STATUS_OK
        ∧ (attach_buffer cfg st imgid ref len).1.buffers
            = (imgid, ref, len) :: st.buffers.filter (fun b => ! (b.1 == imgid))
        ∧ (attach_buffer cfg st imgid ref len).1.buffers.lookup imgid
            = some (ref, len)
        ∧ (attach_buffer cfg st imgid ref len).1.images = st.images) := by
  constructor
  · intro hdead
    simp [attach_buffer, hdead]
  · intro img himg
    refine ⟨?_, ?_, ?_, ?_⟩ <;> simp [attach_buffer, himg, List.lookup]

theorem C3_witness :
    attach_buffer demoCfg demoEngine 9 0 3 = (demoEngine, ERR_INVALID_IMAGE)
    ∧ ((attach_buffer demoCfg demoEngine 1 0 3).2 = STATUS_OK
        ∧ (attach_buffer demoCfg demoEngine 1 0 3).1.buffers
            = (1, 0, 3) :: demoEngine.buffers.filter (fun b => ! (b.1 == 1))
        ∧ (attach_buffer demoCfg demoEngine 1 0 3).1.buffers.lookup 1 = some (0, 3)
        ∧ (attach_buffer demoCfg demoEngine 1 0 3).1.images = demoEngine.images) :=
  ⟨(C3_attach_buffer_contract demoCfg demoEngine 9 0 3).1 (by decide),
   (C3_attach_buffer_contract demoCfg demoEngine 1 0 3).2 demoImg (by decide)⟩

theorem attach_state (cfg : Config) (st : Engine) (imgid ref len : Nat) (img : Image)
    (himg : findImage st imgid = some img) :
    attach_buffer cfg st imgid ref len
      = ({ st with buffers :=
            (imgid, ref, len) :: st.buffers.filter (fun b => ! (b.1 == imgid)) },
         STATUS_OK) := by
  simp [attach_buffer, himg]

theorem export_with_buffer_head (cfg : Config) (st : Engine) (imgid ref len : Nat)
    (rest : List (Nat × Nat × Nat)) (fmt out : String) (q w h : Nat) (img : Image)
    (himg : findImage st imgid = some img) :
    export_image cfg { st with buffers := (imgid, ref, len) :: rest } imgid fmt out q w h
      = applyStore { st with buffers := (imgid, ref, len) :: rest } out
          (runPipeline cfg fmt (some ((cfg.mem ref).take len)) q w h) := by
  have himg2 : findImage ({ st with buffers := (imgid, ref, len) :: rest } : Engine) imgid
      = some img := himg
  have hres : resolve_source ({ st with buffers := (imgid, ref, len) :: rest } : Engine) imgid
      = some (.buffer ref len) := by
    simp [resolve_source, List.lookup]
  simp [export_image, himg2, hres, sourceBytes]

theorem export_attached (cfg : Config) (st : Engine) (imgid ref len : Nat)
    (fmt out : String) (q w h : Nat) (img : Image)
    (himg : findImage st imgid = some img) :
    export_image cfg (attach_buffer cfg st imgid ref len).1 imgid fmt out q w h
      = applyStore (attach_buffer cfg st imgid ref len).1 out
          (runPipeline cfg fmt (some ((cfg.mem ref).take len)) q w h) := by
  rw [attach_state cfg st imgid ref len img himg]
  exact export_with_buffer_head cfg st imgid ref len _ fmt out q w h img himg

theorem export_no_buffer (cfg : Config) (st : Engine) (imgid : Nat)
    (fmt out : String) (q w h : Nat) (img : Image)
    (himg : findImage st imgid = some img)
    (hnb : st.buffers.lookup imgid = none) :
    export_image cfg st imgid fmt out q w h
      = applyStore st out (runPipeline cfg fmt (cfg.fs img.source_path) q w h) := by
  have hres : resolve_source st imgid = some (.path img.source_path) := by
    simp [resolve_source, hnb, himg]
  simp [export_image, himg, hres, sourceBytes]

/-- C1: for a live image id with no attached buffer, export is the
pipeline applied to the bytes of the file at the source path.  After
attach_buffer, export is the pipeline applied to the referenced caller
bytes — stated for an arbitrary prior state, so the source is resolved
fresh at export time and an attach at any point before the export is
respected.  When the buffer bytes are byte-identical to the file, the
buffer-based and the path-based exports return the same status and
produce the same output files. -/
theorem C1_buffer_precedence (cfg : Config) (st : Engine) (imgid ref len : Nat)
    (fmt out : String) (q w h : Nat) (img : Image)
    (himg : findImage st imgid = some img) :
    (st.buffers.lookup imgid = none →
      export_image cfg st imgid fmt out q w h
        = applyStore st out (runPipeline cfg fmt (cfg.fs img.source_path) q w h))
    ∧ (export_image cfg (attach_buffer cfg st imgid ref len).1 imgid fmt out q w h
        = applyStore (attach_buffer cfg st imgid ref len).1 out
            (runPipeline cfg fmt (some ((cfg.mem ref).take len)) q w h))
    ∧ (st.buffers.lookup imgid = none →
       cfg.fs img.source_path = some ((cfg.mem ref).take len) →
        (export_image cfg (attach_buffer cfg st imgid ref len).1 imgid fmt out q w h).2
          = (export_image cfg st imgid fmt out q w h).2
        ∧ (export_image cfg (attach_buffer cfg st imgid ref len).1 imgid
              fmt out q w h).1.outputs
          = (export_image cfg st imgid fmt out q w h).1.outputs) := by
  have hbuf := export_attached cfg st imgid ref len fmt out q w h img himg
  refine ⟨fun hnb => export_no_buffer cfg st imgid fmt out q w h img himg hnb, hbuf, ?_⟩
  intro hnb hfs
  have hpath := export_no_buffer cfg st imgid fmt out q w h img himg hnb
  have hout : ((attach_buffer cfg st imgid ref len).1).outputs = st.outputs := by
    rw [attach_state cfg st imgid ref len img himg]
  rw [hbuf, hpath, hfs]
  cases hr : runPipeline cfg fmt (some ((cfg.mem ref).take len)) q w h with
  | mk o c =>
    cases o with
    | none => simp [applyStore, hout]
    | some encoded => simp [applyStore, hout]

theorem C1_witness :
    (demoEngine.buffers.lookup 1 = none →
      export_image demoCfg demoEngine 1 "jpeg" "/o.jpg" 9 0 0
        = applyStore demoEngine "/o.jpg"
            (runPipeline demoCfg "jpeg" (demoCfg.fs demoImg.source_path) 9 0 0))
    ∧ (export_image demoCfg (attach_buffer demoCfg demoEngine 1 0 3).1 1 "jpeg" "/o.jpg" 9 0 0
        = applyStore (attach_buffer demoCfg demoEngine 1 0 3).1 "/o.jpg"
            (runPipeline demoCfg "jpeg" (some ((demoCfg.mem 0).take 3)) 9 0 0))
    ∧ (demoEngine.buffers.lookup 1 = none →
       demoCfg.fs demoImg.source_path = some ((demoCfg.mem 0).take 3) →
        (export_image demoCfg (attach_buffer demoCfg demoEngine 1 0 3).1 1
            "jpeg" "/o.jpg" 9 0 0).2
          = (export_image demoCfg demoEngine 1 "jpeg" "/o.jpg" 9 0 0).2
        ∧ (export_image demoCfg (attach_buffer demoCfg demoEngine 1 0 3).1 1
            "jpeg" "/o.jpg" 9 0 0).1.outputs
          = (export_image demoCfg demoEngine 1 "jpeg" "/o.jpg" 9 0 0).1.outputs) :=
  C1_buffer_precedence demoCfg demoEngine 1 0 3 "jpeg" "/o.jpg" 9 0 0 demoImg (by decide)

/-- C8: attaching a second buffer to the same image id replaces the first
association entirely: the state after the two attaches equals the state
after attaching only the second buffer, the resolved decode source is the
second buffer, and the export result is exactly the export result with
only the second buffer attached — never the first buffer nor a mix. -/
theorem C8_replace_on_attach (cfg : Config) (st : Engine) (imgid r1 l1 r2 l2 : Nat)
    (fmt out : String) (q w h : Nat) (img : Image)
    (himg : findImage st imgid = some img) :
    (attach_buffer cfg (attach_buffer cfg st imgid r1 l1).1 imgid r2 l2).1
      = (attach_buffer cfg st imgid r2 l2).1
    ∧ resolve_source
        (attach_buffer cfg (attach_buffer cfg st imgid r1 l1).1 imgid r2 l2).1 imgid
      = some (.buffer r2 l2)
    ∧ export_image cfg
        (attach_buffer cfg (attach_buffer cfg st imgid r1 l1).1 imgid r2 l2).1
        imgid fmt out q w h
      = export_image cfg (attach_buffer cfg st imgid r2 l2).1 imgid fmt out q w h := by
  have h1 := attach_state cfg st imgid r1 l1 img himg
  have himg1 : findImage (attach_buffer cfg st imgid r1 l1).1 imgid = some img := by
    rw [h1]; exact himg
  have h2 := attach_state cfg (attach_buffer cfg st imgid r1 l1).1 imgid r2 l2 img himg1
  have h3 := attach_state cfg st imgid r2 l2 img himg
  have hstates : (attach_buffer cfg (attach_buffer cfg st imgid r1 l1).1 imgid r2 l2).1
      = (attach_buffer cfg st imgid r2 l2).1 := by
    rw [h2, h3, h1]
    simp [List.filter_filter]
  refine ⟨hstates, ?_, ?_⟩
  · rw [hstates, h3]
    simp [resolve_source, List.lookup]
  · rw [hstates]

theorem C8_witness :
    (attach_buffer demoCfg (attach_buffer demoCfg demoEngine 1 5 2).1 1 0 3).1
      = (attach_buffer demoCfg demoEngine 1 0 3).1
    ∧ resolve_source
        (attach_buffer demoCfg (attach_buffer demoCfg demoEngine 1 5 2).1 1 0 3).1 1
      = some (.buffer 0 3)
    ∧ export_image demoCfg
        (attach_buffer demoCfg (attach_buffer demoCfg demoEngine 1 5 2).1 1 0 3).1
        1 "jpeg" "/o.jpg" 9 0 0
      = export_image demoCfg (attach_buffer demoCfg demoEngine 1 0 3).1
          1 "jpeg" "/o.jpg" 9 0 0 :=
  C8_replace_on_attach demoCfg demoEngine 1 5 2 0 3 "jpeg" "/o.jpg" 9 0 0 demoImg
    (by decide)

/-- C4: the metadata of a freshly imported image is extracted from the
bytes of the file at the source path, at import time.  The file read is
unconditional: an import with an unreadable file fails with the INVALID
sentinel whatever else holds, and the import result is independent of
the buffer registry, so an attached or planned buffer never substitutes
for the read.  Metadata is immutable afterwards: neither attach_buffer
nor export_image ever changes the catalog, so it is never re-derived
from a later-attached buffer. -/
theorem C4_metadata_import_only (cfg : Config) (st : Engine) (f : Nat) (p : String)
    (ov : Bool) (bytes : List Nat)
    (hf : filmLive st f = true) (hs : cfg.supported p = true)
    (hnew : findCatalogImage st f p = none) (hb : cfg.fs p = some bytes) :
    ((import_image cfg st f p ov true).1.images.head?
        = some ⟨st.nextImageId, f, p, cfg.extract bytes⟩)
    ∧ (∀ cfg2 : Config, cfg2.supported p = true → cfg2.fs p = none →
        (import_image cfg2 st f p ov true).2 = INVALID_ID)
    ∧ (∀ B, import_image cfg { st with buffers := B } f p ov true
          = ({ (import_image cfg st f p ov true).1 with buffers := B },
             (import_image cfg st f p ov true).2))
    ∧ (∀ st2 : Engine, ∀ i r l : Nat,
        (attach_buffer cfg st2 i r l).1.images = st2.images)
    ∧ (∀ st2 : Engine, ∀ i q2 w2 h2 : Nat, ∀ fmt2 out2 : String,
        (export_image cfg st2 i fmt2 out2 q2 w2 h2).1.images = st2.images) := by
  refine ⟨?_, ?_, ?_, ?_, ?_⟩
  · simp [import_image, hf, hs, hnew, hb]
  · intro cfg2 hs2 hn2
    simp [import_image, hf, hs2, hnew, hn2]
  · intro B
    have hfB : filmLive ({ st with buffers := B } : Engine) f = true := hf
    have hnewB : findCatalogImage ({ st with buffers := B } : Engine) f p = none := hnew
    simp [import_image, hf, hs, hnew, hb, hfB, hnewB]
  · intro st2 i r l
    unfold attach_buffer
    cases hfi : findImage st2 i <;> simp
  · intro st2 i q2 w2 h2 fmt2 out2
    unfold export_image
    cases hfi : findImage st2 i with
    | none => simp
    | some img2 =>
      cases hrs : resolve_source st2 i with
      | none => simp
      | some src =>
        cases hrp : runPipeline cfg fmt2 (sourceBytes cfg src) q2 w2 h2 with
        | mk o c =>
          cases o <;> simp [applyStore, hrp]

theorem C4_witness :
    ((import_image demoCfg demoEngine 1 "/d/b.raw" false true).1.images.head?
        = some ⟨demoEngine.nextImageId, 1, "/d/b.raw", demoCfg.extract [1, 2]⟩)
    ∧ (∀ cfg2 : Config, cfg2.supported "/d/b.raw" = true → cfg2.fs "/d/b.raw" = none →
        (import_image cfg2 demoEngine 1 "/d/b.raw" false true).2 = INVALID_ID)
    ∧ (∀ B, import_image demoCfg { demoEngine with buffers := B } 1 "/d/b.raw" false true
          = ({ (import_image demoCfg demoEngine 1 "/d/b.raw" false true).1 with
                buffers := B },
             (import_image demoCfg demoEngine 1 "/d/b.raw" false true).2))
    ∧ (∀ st2 : Engine, ∀ i r l : Nat,
        (attach_buffer demoCfg st2 i r l).1.images = st2.images)
    ∧ (∀ st2 : Engine, ∀ i q2 w2 h2 : Nat, ∀ fmt2 out2 : String,
        (export_image demoCfg st2 i fmt2 out2 q2 w2 h2).1.images = st2.images) :=
  C4_metadata_import_only demoCfg demoEngine 1 "/d/b.raw" false [1, 2]
    (by decide) (by decide) (by decide) (by decide)

/-- C5: status codes are 0 on success and distinct nonzero values per
failure class; exporting a live image whose attached buffer holds
undecodable bytes returns the DecodeError status and leaves the engine
state exactly as it was, so any subsequent export — on a different image
id or on the same one — behaves exactly as it would have without the
failed export. -/
theorem C5_graceful_decode_failure (cfg : Config) (st : Engine)
    (imgid ref len : Nat) (fmt out : String) (q w h : Nat) (img : Image)
    (himg : findImage st imgid = some img)
    (hdec : cfg.decode ((cfg.mem ref).take len) = none) :
    (export_image cfg (attach_buffer cfg st imgid ref len).1 imgid fmt out q w h
      = ((attach_buffer cfg st imgid ref len).1, ERR_DECODE))
    ∧ (ERR_DECODE ≠ STATUS_OK ∧ ERR_EXPORT ≠ STATUS_OK
        ∧ ERR_INVALID_IMAGE ≠ STATUS_OK ∧ ERR_DECODE ≠ ERR_EXPORT
        ∧ ERR_DECODE ≠ ERR_INVALID_IMAGE ∧ ERR_EXPORT ≠ ERR_INVALID_IMAGE)
    ∧ (∀ id2 : Nat, ∀ fmt2 out2 : String, ∀ q2 w2 h2 : Nat,
        export_image cfg
          (export_image cfg (attach_buffer cfg st imgid ref len).1
              imgid fmt out q w h).1
          id2 fmt2 out2 q2 w2 h2
        = export_image cfg (attach_buffer cfg st imgid ref len).1
            id2 fmt2 out2 q2 w2 h2) := by
  have hrp : runPipeline cfg fmt (some ((cfg.mem ref).take len)) q w h
      = (none, ERR_DECODE) := by
    simp [runPipeline, hdec]
  have hfail : export_image cfg (attach_buffer cfg st imgid ref len).1
      imgid fmt out q w h = ((attach_buffer cfg st imgid ref len).1, ERR_DECODE) := by
    rw [export_attached cfg st imgid ref len fmt out q w h img himg, hrp]
    rfl
  refine ⟨hfail, by decide, ?_⟩
  intro id2 fmt2 out2 q2 w2 h2
  rw [hfail]

theorem C5_witness :
    (export_image demoCfg (attach_buffer demoCfg demoEngine 1 1 2).1 1
        "jpeg" "/o.jpg" 9 0 0
      = ((attach_buffer demoCfg demoEngine 1 1 2).1, ERR_DECODE))
    ∧ (ERR_DECODE ≠ STATUS_OK ∧ ERR_EXPORT ≠ STATUS_OK
        ∧ ERR_INVALID_IMAGE ≠ STATUS_OK ∧ ERR_DECODE ≠ ERR_EXPORT
        ∧ ERR_DECODE ≠ ERR_INVALID_IMAGE ∧ ERR_EXPORT ≠ ERR_INVALID_IMAGE)
    ∧ (∀ id2 : Nat, ∀ fmt2 out2 : String, ∀ q2 w2 h2 : Nat,
        export_image demoCfg
          (export_image demoCfg (attach_buffer demoCfg demoEngine 1 1 2).1 1
              "jpeg" "/o.jpg" 9 0 0).1
          id2 fmt2 out2 q2 w2 h2
        = export_image demoCfg (attach_buffer demoCfg demoEngine 1 1 2).1
            id2 fmt2 out2 q2 w2 h2) :=
  C5_graceful_decode_failure demoCfg demoEngine 1 1 2 "jpeg" "/o.jpg" 9 0 0 demoImg
    (by decide) (by decide)

/-- C2: export_from_buffer is the implicit ephemeral import, the attach
and the export composed in one call, with the format module inferred
from the output path and the direct-file storage module; it returns the
ModuleLookupError status when the inference fails, and whenever it
returns the success status a nonempty output file exists at the output
path.  The call never consults the filesystem for its pixel data. -/
theorem C2_export_from_buffer_composite (cfg : Config) (st : Engine) (ref len : Nat)
    (out : String) (q w h : Nat) :
    (cfg.inferFormat out = none →
       export_from_buffer cfg st ref len out q w h = (st, ERR_MODULE_LOOKUP))
    ∧ (∀ fmt, cfg.inferFormat out = some fmt → cfg.storages.contains "disk" = true →
        export_from_buffer cfg st ref len out q w h
          = export_image cfg
              (attach_buffer cfg (ephemeralImport st) st.nextImageId ref len).1
              st.nextImageId fmt out q w h)
    ∧ ((export_from_buffer cfg st ref len out q w h).2 = STATUS_OK →
        ∃ encoded, encoded ≠ []
          ∧ (export_from_buffer cfg st ref len out q w h).1.outputs.lookup out
              = some encoded)
    ∧ (∀ fs2, export_from_buffer { cfg with fs := fs2 } st ref len out q w h
          = export_from_buffer cfg st ref len out q w h) := by
  have hfi : findImage (ephemeralImport st) st.nextImageId
      = some ⟨st.nextImageId, 0, "", emptyMetadata⟩ := by
    simp [findImage, ephemeralImport, List.find?]
  refine ⟨?_, ?_, ?_, ?_⟩
  · intro hinf
    simp [export_from_buffer, hinf]
  · intro fmt hinf hdisk
    have hmem : "disk" ∈ cfg.storages := by simpa using hdisk
    simp [export_from_buffer, hinf, hmem]
  · intro hok
    revert hok
    cases hinf : cfg.inferFormat out with
    | none =>
      simp [export_from_buffer, hinf, ERR_MODULE_LOOKUP, STATUS_OK]
    | some fmt =>
      cases hdisk : cfg.storages.contains "disk" with
      | false =>
        have hmem : "disk" ∉ cfg.storages := by simpa using hdisk
        simp [export_from_buffer, hinf, hmem, ERR_MODULE_LOOKUP, STATUS_OK]
      | true =>
        have hmem : "disk" ∈ cfg.storages := by simpa using hdisk
        have hexp : export_from_buffer cfg st ref len out q w h
            = export_image cfg
                (attach_buffer cfg (ephemeralImport st) st.nextImageId ref len).1
                st.nextImageId fmt out q w h := by
          simp [export_from_buffer, hinf, hmem]
        rw [hexp,
          export_attached cfg (ephemeralImport st) st.nextImageId ref len fmt out
            q w h ⟨st.nextImageId, 0, "", emptyMetadata⟩ hfi]
        cases hdec : cfg.decode ((cfg.mem ref).take len) with
        | none =>
          simp [runPipeline, hdec, applyStore, ERR_DECODE, STATUS_OK]
        | some raster =>
          cases henc : cfg.encode fmt (cfg.process raster w h) q with
          | nil =>
            simp [runPipeline, hdec, henc, applyStore, ERR_EXPORT, STATUS_OK]
          | cons a tl =>
            intro _
            refine ⟨a :: tl, by simp, ?_⟩
            simp [runPipeline, hdec, henc, applyStore, List.lookup]
  · intro fs2
    cases hinf : cfg.inferFormat out with
    | none =>
      have hinf2 : ({ cfg with fs := fs2 } : Config).inferFormat out = none := hinf
      simp [export_from_buffer, hinf, hinf2]
    | some fmt =>
      have hinf2 : ({ cfg with fs := fs2 } : Config).inferFormat out = some fmt := hinf
      cases hdisk : cfg.storages.contains "disk" with
      | false =>
        have hmem : "disk" ∉ cfg.storages := by simpa using hdisk
        simp [export_from_buffer, hinf, hinf2, hmem]
      | true =>
        have hmem : "disk" ∈ cfg.storages := by simpa using hdisk
        have hfi2 : findImage (ephemeralImport st) st.nextImageId
            = some ⟨st.nextImageId, 0, "", emptyMetadata⟩ := hfi
        have h1 : export_from_buffer { cfg with fs := fs2 } st ref len out q w h
            = export_image { cfg with fs := fs2 }
                (attach_buffer { cfg with fs := fs2 } (ephemeralImport st)
                    st.nextImageId ref len).1
                st.nextImageId fmt out q w h := by
          simp [export_from_buffer, hinf, hinf2, hmem]
        have h2 : export_from_buffer cfg st ref len out q w h
            = export_image cfg
                (attach_buffer cfg (ephemeralImport st) st.nextImageId ref len).1
                st.nextImageId fmt out q w h := by
          simp [export_from_buffer, hinf, hmem]
        rw [h1, h2,
          export_attached { cfg with fs := fs2 } (ephemeralImport st) st.nextImageId
            ref len fmt out q w h ⟨st.nextImageId, 0, "", emptyMetadata⟩ hfi2,
          export_attached cfg (ephemeralImport st) st.nextImageId
            ref len fmt out q w h ⟨st.nextImageId, 0, "", emptyMetadata⟩ hfi]
        rfl

theorem C2_witness :
    (demoCfg.inferFormat "" = none →
       export_from_buffer demoCfg demoEngine 0 3 "" 9 0 0
         = (demoEngine, ERR_MODULE_LOOKUP))
    ∧ (∀ fmt, demoCfg.inferFormat "" = some fmt →
        demoCfg.storages.contains "disk" = true →
        export_from_buffer demoCfg demoEngine 0 3 "" 9 0 0
          = export_image demoCfg
              (attach_buffer demoCfg (ephemeralImport demoEngine)
                  demoEngine.nextImageId 0 3).1
              demoEngine.nextImageId fmt "" 9 0 0)
    ∧ ((export_from_buffer demoCfg demoEngine 0 3 "" 9 0 0).2 = STATUS_OK →
        ∃ encoded, encoded ≠ []
          ∧ (export_from_buffer demoCfg demoEngine 0 3 "" 9 0 0).1.outputs.lookup ""
              = some encoded)
    ∧ (∀ fs2, export_from_buffer { demoCfg with fs := fs2 } demoEngine 0 3 "" 9 0 0
          = export_from_buffer demoCfg demoEngine 0 3 "" 9 0 0) :=
  C2_export_from_buffer_composite demoCfg demoEngine 0 3 "" 9 0 0

/-
Driver embeddings.  Each Python driver is embedded as a function from the
outcomes of its fallible calls to the sequence of engine API events it
performs, mirroring the control flow of the script line by line.  Params
objects are identified by small numbers: 0 is the format params object,
1 is the storage params object of the cycle.
-/

/-- One engine API event performed by a driver. -/
inductive DEvent where
  | initOk
  | initFail
  | cleanup
  | filmNew
  | imageImport
  | attachBuf
  | moduleLookup
  | exportFromBuf
  | getParams (o : Nat)
  | freeParams (o : Nat)
  | configureOp (s f : Nat)
  | storeOp (s f : Nat)
  | finalizeOp (o : Nat)
deriving DecidableEq, Repr

/-- Outcomes of the fallible calls in test_buffer_export.py main. -/
structure BufXEnv where
  initRet : Int
  filmValid : Bool
  imgValid : Bool
  formatFound : Bool
  storageFound : Bool
  paramsOk : Bool
  exportRet : Int
  outputExists : Bool
deriving DecidableEq, Repr

/-- The body of the try block of test_buffer_export.py main: film
creation, import, attach, module lookups, params, configure, store,
output check, then on the all-success path free of the format params,
free of the storage params, and finalize of the storage params — in that
order, as in lines 183 to 185 of the script.  An early return leaves the
rest of the body unexecuted. -/
def testBufferExportBody (e : BufXEnv) : List DEvent :=
  DEvent.filmNew ::
  if ¬ e.filmValid then [] else
  DEvent.imageImport ::
  if ¬ e.imgValid then [] else
  DEvent.attachBuf ::
  DEvent.moduleLookup ::
  if ¬ e.formatFound then [] else
  DEvent.moduleLookup ::
  if ¬ e.storageFound then [] else
  DEvent.getParams 0 ::
  DEvent.getParams 1 ::
  if ¬ e.paramsOk then [] else
  DEvent.configureOp 1 0 ::
  DEvent.storeOp 1 0 ::
  if ¬ (e.exportRet = 0) then [] else
  if ¬ e.outputExists then [] else
  [DEvent.freeParams 0, DEvent.freeParams 1, DEvent.finalizeOp 1]

/-- test_buffer_export.py main: after a successful init the body runs
inside a try block whose finally clause always performs the cleanup. -/
def testBufferExportTrace (e : BufXEnv) : List DEvent :=
  if e.initRet = 0 then
    DEvent.initOk :: (testBufferExportBody e ++ [DEvent.cleanup])
  else [DEvent.initFail]

/-- Outcomes of the fallible calls in test_dt_api.py test_basic_workflow. -/
structure ApiEnv where
  initRet : Int
  supportedImg : Bool
  filmValid : Bool
  imgValid : Bool
  modulesFound : Bool
  paramsOk : Bool
  exportRet : Int
  outputExists : Bool
deriving DecidableEq, Repr

/-- test_dt_api.py test_basic_workflow: every failure path performs the
cleanup itself before returning; the final section always runs finalize
of the storage params, free of the storage params, free of the format
params, then the cleanup, whatever the export returned. -/
def testDtApiTrace (e : ApiEnv) : List DEvent :=
  if e.initRet = 0 then
    DEvent.initOk ::
    (if ¬ e.supportedImg then [DEvent.cleanup] else
     DEvent.filmNew ::
     if ¬ e.filmValid then [DEvent.cleanup] else
     DEvent.imageImport ::
     if ¬ e.imgValid then [DEvent.cleanup] else
     DEvent.moduleLookup ::
     DEvent.moduleLookup ::
     if ¬ e.modulesFound then [DEvent.cleanup] else
     DEvent.getParams 0 ::
     DEvent.getParams 1 ::
     if ¬ e.paramsOk then [DEvent.cleanup] else
     [DEvent.configureOp 1 0, DEvent.storeOp 1 0,
      DEvent.finalizeOp 1, DEvent.freeParams 1, DEvent.freeParams 0,
      DEvent.cleanup])
  else [DEvent.initFail]

/-- Outcomes of the fallible calls in demo_buffer_export.py. -/
structure DemoEnv where
  initRet : Int
  readOk : Bool
  exportRet : Int
  outputExists : Bool
deriving DecidableEq, Repr

/-- demo_buffer_export.py demo_buffer_export: after a successful init,
every failure path performs the cleanup itself before returning, and the
success path performs it at step 5. -/
def demoBufferExportTrace (e : DemoEnv) : List DEvent :=
  if e.initRet = 0 then
    DEvent.initOk ::
    (if ¬ e.readOk then [DEvent.cleanup] else
     DEvent.exportFromBuf ::
     if ¬ (e.exportRet = 0) then [DEvent.cleanup] else
     if ¬ e.outputExists then [DEvent.cleanup] else
     [DEvent.cleanup])
  else [DEvent.initFail]

/-- test_init_only.py: cleanup exactly when the init succeeded. -/
def testInitOnlyTrace (initRet : Int) : List DEvent :=
  if initRet = 0 then [DEvent.initOk, DEvent.cleanup] else [DEvent.initFail]

/-- Outcomes of the fallible calls in one process_image invocation of
benchmark_batch.py or benchmark_detailed_state_reuse.py. -/
structure ProcEnv where
  filmValid : Bool
  imgValid : Bool
  modulesFound : Bool
  paramsOk : Bool
  exportRet : Int
deriving DecidableEq, Repr

/-- process_image of benchmark_batch.py and of
benchmark_detailed_state_reuse.py: film creation, import, module
lookups, params, configure, store, then finalize of the storage params,
free of the storage params and free of the format params; failure paths
return early and never touch the engine lifecycle. -/
def processImageTrace (e : ProcEnv) : List DEvent :=
  DEvent.filmNew ::
  if ¬ e.filmValid then [] else
  DEvent.imageImport ::
  if ¬ e.imgValid then [] else
  DEvent.moduleLookup ::
  DEvent.moduleLookup ::
  if ¬ e.modulesFound then [] else
  DEvent.getParams 0 ::
  DEvent.getParams 1 ::
  if ¬ e.paramsOk then [] else
  [DEvent.configureOp 1 0, DEvent.storeOp 1 0,
   DEvent.finalizeOp 1, DEvent.freeParams 1, DEvent.freeParams 0]

/-- Concatenation of the traces of a sequence of loop iterations. -/
def flatTraces {α : Type} (f : α → List DEvent) : List α → List DEvent
  | [] => []
  | c :: cs => f c ++ flatTraces f cs

/-- benchmark_batch.py main: one init, the per-image loop, one cleanup;
a failed init returns before anything else. -/
def benchmarkBatchTrace (initRet : Int) (cycles : List ProcEnv) : List DEvent :=
  if initRet = 0 then
    DEvent.initOk :: (flatTraces processImageTrace cycles ++ [DEvent.cleanup])
  else [DEvent.initFail]

/-- Outcomes of the fallible calls in one process_image_full_cycle
invocation of benchmark_detailed_no_reuse.py. -/
structure CycleEnv where
  initRet : Int
  filmValid : Bool
  imgValid : Bool
  modulesFound : Bool
  paramsOk : Bool
  exportRet : Int
deriving DecidableEq, Repr

/-- process_image_full_cycle of benchmark_detailed_no_reuse.py: its own
init and its own cleanup per image; after a successful init every
failure path performs the cleanup itself before returning. -/
def fullCycleTrace (e : CycleEnv) : List DEvent :=
  if e.initRet = 0 then
    DEvent.initOk ::
    DEvent.filmNew ::
    (if ¬ e.filmValid then [DEvent.cleanup] else
     DEvent.imageImport ::
     if ¬ e.imgValid then [DEvent.cleanup] else
     DEvent.moduleLookup ::
     DEvent.moduleLookup ::
     if ¬ e.modulesFound then [DEvent.cleanup] else
     DEvent.getParams 0 ::
     DEvent.getParams 1 ::
     if ¬ e.paramsOk then [DEvent.cleanup] else
     [DEvent.configureOp 1 0, DEvent.storeOp 1 0,
      DEvent.finalizeOp 1, DEvent.freeParams 1, DEvent.freeParams 0,
      DEvent.cleanup])
  else [DEvent.initFail]

/-- benchmark_detailed_no_reuse.py main: the loop of full cycles; main
itself never touches the engine lifecycle. -/
def benchmarkNoReuseTrace (cycles : List CycleEnv) : List DEvent :=
  flatTraces fullCycleTrace cycles

/-- benchmark_detailed_state_reuse.py main: one init, the per-image
loop, one cleanup; a failed init returns before anything else. -/
def benchmarkStateReuseTrace (initRet : Int) (cycles : List ProcEnv) : List DEvent :=
  if initRet = 0 then
    DEvent.initOk :: (flatTraces processImageTrace cycles ++ [DEvent.cleanup])
  else [DEvent.initFail]

def isCleanup : DEvent → Bool
  | .cleanup => true
  | _ => false

def isInitOk : DEvent → Bool
  | .initOk => true
  | _ => false

/-- How many cleanup calls a trace performs. -/
def countCleanup (tr : List DEvent) : Nat := tr.countP isCleanup

/-- How many successful init calls a trace performs. -/
def countInitOk (tr : List DEvent) : Nat := tr.countP isInitOk

/-- Whether an event operates on an already freed params object. -/
def usesFreed (freed : List Nat) : DEvent → Bool
  | .configureOp s f => freed.contains s || freed.contains f
  | .storeOp s f => freed.contains s || freed.contains f
  | .finalizeOp o => freed.contains o
  | .freeParams o => freed.contains o
  | _ => false

/-- The freed set after an event. -/
def updateFreed (freed : List Nat) : DEvent → List Nat
  | .freeParams o => o :: freed
  | _ => freed

/-- Whether a trace ever invokes a module operation (configure, store,
finalize, or a second free) on a params object after its free. -/
def usesAfterFree : List DEvent → List Nat → Bool
  | [], _ => false
  | e :: rest, freed => usesFreed freed e || usesAfterFree rest (updateFreed freed e)

/-- The all-success outcome of test_buffer_export.py main. -/
def happyBufXEnv : BufXEnv := ⟨0, true, true, true, true, true, 0, true⟩

/-- C9 evaluated at the failing input: on the all-success run of
test_buffer_export.py main, the cleanup sequence frees the storage
params object and then invokes finalize on it (lines 183 to 185 of the
script), so a module operation is performed on a freed params object,
contradicting the pairing and no-use-after-free discipline the claim
states for every export sequence of the driver programs. -/
theorem C9_use_after_free_in_test_buffer_export :
    testBufferExportTrace happyBufXEnv
      = [DEvent.initOk, DEvent.filmNew, DEvent.imageImport, DEvent.attachBuf,
         DEvent.moduleLookup, DEvent.moduleLookup, DEvent.getParams 0,
         DEvent.getParams 1, DEvent.configureOp 1 0, DEvent.storeOp 1 0,
         DEvent.freeParams 0, DEvent.freeParams 1, DEvent.finalizeOp 1,
         DEvent.cleanup]
    ∧ usesAfterFree (testBufferExportTrace happyBufXEnv) [] = true
    ∧ usesAfterFree (testDtApiTrace ⟨0, true, true, true, true, true, 0, true⟩) []
        = false := by
  refine ⟨by decide, by decide, by decide⟩

theorem procImageTrace_lifecycle_free (e : ProcEnv) :
    countCleanup (processImageTrace e) = 0 ∧ countInitOk (processImageTrace e) = 0 := by
  obtain ⟨fv, iv, mf, po, xr⟩ := e
  cases fv <;> cases iv <;> cases mf <;> cases po <;>
    simp [processImageTrace, countCleanup, countInitOk, isCleanup, isInitOk,
      List.countP_cons, List.countP_nil]

theorem fullCycleTrace_balanced (e : CycleEnv) :
    countCleanup (fullCycleTrace e) = countInitOk (fullCycleTrace e) := by
  obtain ⟨ir, fv, iv, mf, po, xr⟩ := e
  by_cases hir : ir = 0 <;>
    cases fv <;> cases iv <;> cases mf <;> cases po <;>
      simp [fullCycleTrace, hir, countCleanup, countInitOk, isCleanup, isInitOk,
        List.countP_cons, List.countP_nil]

theorem flatTraces_countP (p : DEvent → Bool) {α : Type} (f : α → List DEvent)
    (cs : List α) :
    (flatTraces f cs).countP p = (cs.map (fun c => (f c).countP p)).sum := by
  induction cs with
  | nil => simp [flatTraces]
  | cons c cs ih => simp [flatTraces, List.countP_append, ih]

/-- C10: in every driver program, the teardown call is performed exactly
once per successful init call before the driver returns — on success
paths and on every failure path alike, and never after a failed init. -/
theorem C10_cleanup_exactly_once_per_init :
    (∀ e : BufXEnv, countCleanup (testBufferExportTrace e)
        = countInitOk (testBufferExportTrace e))
    ∧ (∀ e : ApiEnv, countCleanup (testDtApiTrace e)
        = countInitOk (testDtApiTrace e))
    ∧ (∀ e : DemoEnv, countCleanup (demoBufferExportTrace e)
        = countInitOk (demoBufferExportTrace e))
    ∧ (∀ r : Int, countCleanup (testInitOnlyTrace r)
        = countInitOk (testInitOnlyTrace r))
    ∧ (∀ r : Int, ∀ cs : List ProcEnv, countCleanup (benchmarkBatchTrace r cs)
        = countInitOk (benchmarkBatchTrace r cs))
    ∧ (∀ cs : List CycleEnv, countCleanup (benchmarkNoReuseTrace cs)
        = countInitOk (benchmarkNoReuseTrace cs))
    ∧ (∀ r : Int, ∀ cs : List ProcEnv, countCleanup (benchmarkStateReuseTrace r cs)
        = countInitOk (benchmarkStateReuseTrace r cs)) := by
  have hbatch : ∀ r : Int, ∀ cs : List ProcEnv,
      countCleanup (benchmarkBatchTrace r cs) = countInitOk (benchmarkBatchTrace r cs) := by
    intro r cs
    by_cases hr : r = 0
    · have hz : ∀ p : DEvent → Bool,
          (∀ e : ProcEnv, (processImageTrace e).countP p = 0) →
          (flatTraces processImageTrace cs).countP p = 0 := by
        intro p hp
        rw [flatTraces_countP]
        induction cs with
        | nil => simp
        | cons c cs ih => simp [hp c, ih]
      have h1 : (flatTraces processImageTrace cs).countP isCleanup = 0 :=
        hz isCleanup (fun e => (procImageTrace_lifecycle_free e).1)
      have h2 : (flatTraces processImageTrace cs).countP isInitOk = 0 :=
        hz isInitOk (fun e => (procImageTrace_lifecycle_free e).2)
      simp [benchmarkBatchTrace, hr, countCleanup, countInitOk,
        List.countP_cons, List.countP_append, isCleanup, isInitOk, h1, h2,
        countCleanup] at *
    · simp [benchmarkBatchTrace, hr, countCleanup, countInitOk,
        List.countP_cons, List.countP_nil, isCleanup, isInitOk]
  refine ⟨?_, ?_, ?_, ?_, hbatch, ?_, ?_⟩
  · intro e
    obtain ⟨ir, fv, iv, ff, sf, po, xr, oe⟩ := e
    by_cases hir : ir = 0 <;> by_cases hxr : xr = 0 <;>
      cases fv <;> cases iv <;> cases ff <;> cases sf <;> cases po <;> cases oe <;>
        simp [testBufferExportTrace, testBufferExportBody, hir, hxr,
          countCleanup, countInitOk, isCleanup, isInitOk,
          List.countP_cons, List.countP_nil, List.countP_append]
  · intro e
    obtain ⟨ir, si, fv, iv, mf, po, xr, oe⟩ := e
    by_cases hir : ir = 0 <;>
      cases si <;> cases fv <;> cases iv <;> cases mf <;> cases po <;>
        simp [testDtApiTrace, hir, countCleanup, countInitOk, isCleanup, isInitOk,
          List.countP_cons, List.countP_nil]
  · intro e
    obtain ⟨ir, ro, xr, oe⟩ := e
    by_cases hir : ir = 0 <;> by_cases hxr : xr = 0 <;>
      cases ro <;> cases oe <;>
        simp [demoBufferExportTrace, hir, hxr, countCleanup, countInitOk,
          isCleanup, isInitOk, List.countP_cons, List.countP_nil]
  · intro r
    by_cases hr : r = 0 <;>
      simp [testInitOnlyTrace, hr, countCleanup, countInitOk, isCleanup, isInitOk,
        List.countP_cons, List.countP_nil]
  · intro cs
    unfold benchmarkNoReuseTrace countCleanup countInitOk
    rw [flatTraces_countP, flatTraces_countP]
    induction cs with
    | nil => simp
    | cons c cs ih =>
      simp only [List.map_cons, List.sum_cons, ih]
      have := fullCycleTrace_balanced c
      unfold countCleanup countInitOk at this
      omega
  · intro r cs
    have h := hbatch r cs
    unfold benchmarkBatchTrace at h
    unfold benchmarkStateReuseTrace
    exact h

end DT
